import Mathlib

set_option maxHeartbeats 1000000

/-! Verification of the two logging adapter shims `alsa_log_stub`
(src/alsalog.c) and `ffmpeg_log_stub` (src/fflog.c).  Each adapter renders a
variadic format request into a fixed stack buffer `char buf[1024]` with
`vsnprintf(buf, sizeof(buf), format, arg)` and forwards call-site metadata
plus the rendered C string to an external backend.  Bytes are modelled as
`Nat` values, pointers as their numeric values, and memory as the stack
buffer plus an abstract remainder.  Each adapter returns the memory after
the call together with the list of backend invocations it performed. -/

/-- A single variadic argument consumed by a format directive: an integer
(for the d directive) or a byte string (for the s directive). -/
inductive FmtArg where
  | int : Int → FmtArg
  | str : List Nat → FmtArg

/-- Modelled from the spec: decimal digit rendering of a natural number as
ASCII bytes, as the C library formatting primitive does for integer
directives; fuel-based so the recursion is structural. -/
def natDigitsCore : Nat → Nat → List Nat → List Nat
  | 0, _, acc => acc
  | fuel + 1, n, acc =>
    if n < 10 then (48 + n) :: acc
    else natDigitsCore fuel (n / 10) ((48 + n % 10) :: acc)

/-- ASCII decimal rendering of a natural number. -/
def natToDecBytes (n : Nat) : List Nat := natDigitsCore (n + 1) n []

/-- ASCII decimal rendering of an integer, with a leading minus sign byte
for negative values. -/
def intToDecBytes (i : Int) : List Nat :=
  if i < 0 then 45 :: natToDecBytes i.natAbs else natToDecBytes i.natAbs

/-- Modelled from the spec: the unbounded result of the C library variadic
formatting primitive (`vsnprintf` with no size limit, the repository itself
contains no formatter), restricted to the directive forms the adapters
forward: byte 37 is the directive marker, 37 100 renders an integer
argument in decimal, 37 115 splices a string argument, 37 37 is a literal
37, and every other byte is copied verbatim. -/
def formatUnbounded : List Nat → List FmtArg → List Nat
  | [], _ => []
  | c :: [], _ => if c = 37 then [] else [c]
  | c :: d :: fmtRest, args =>
    if c = 37 then
      if d = 37 then 37 :: formatUnbounded fmtRest args
      else if d = 100 then
        match args with
        | FmtArg.int i :: args2 => intToDecBytes i ++ formatUnbounded fmtRest args2
        | _ => formatUnbounded fmtRest args
      else if d = 115 then
        match args with
        | FmtArg.str s :: args2 => s ++ formatUnbounded fmtRest args2
        | _ => formatUnbounded fmtRest args
      else 37 :: d :: formatUnbounded fmtRest args
    else c :: formatUnbounded (d :: fmtRest) args

/-- The fixed rendering buffer capacity, from `char buf[1024]` in both
source files. -/
def BUF_SIZE : Nat := 1024

/-- Modelled from the spec: the bytes `vsnprintf` stores into a buffer of
the given size: at most size - 1 bytes of the unbounded result, then the
NUL terminator. -/
def bufWritten (size : Nat) (out : List Nat) : List Nat :=
  out.take (size - 1) ++ [0]

/-- Overwrite the front of a byte region with freshly written bytes; bytes
past the written range keep their previous (uninitialized) values.  If the
written bytes were longer than the region this result would be longer than
the region, which is how the model expresses a buffer overrun. -/
def storeBytes (dst src : List Nat) : List Nat := src ++ dst.drop src.length

/-- The C string a callee reads from a buffer: the bytes before the first
NUL byte. -/
def cString (l : List Nat) : List Nat := l.takeWhile (fun b => b != 0)

/-- Memory visible to one adapter call: the stack buffer `buf` (its
contents on entry are arbitrary, it is uninitialized) and all other process
memory, kept abstract. -/
structure CMem where
  buf : List Nat
  rest : List Nat

/-- Arguments of one `alsa_log_stub` call. -/
structure AlsaCall where
  file : List Nat
  line : Int
  function : List Nat
  errno : Int
  format : List Nat
  args : List FmtArg

/-- One invocation of `alsa_log_backend`, with the five forwarded fields. -/
structure AlsaSinkEvent where
  file : List Nat
  line : Int
  function : List Nat
  errno : Int
  message : List Nat

/-- Arguments of one `ffmpeg_log_stub` call; `ptr` is the pointer argument
as a numeric value (the source casts it with `(uintptr_t)ptr`). -/
structure FfCall where
  ptr : Nat
  level : Int
  format : List Nat
  args : List FmtArg

/-- One invocation of `ffmpeg_log_backend`, with the three forwarded
fields. -/
structure FfSinkEvent where
  handle : Nat
  level : Int
  message : List Nat

/-- src/alsalog.c, `alsa_log_stub`: render the format request into `buf`
with `vsnprintf(buf, sizeof(buf), format, arg)`, then call
`alsa_log_backend(file, line, function, errno, buf)`.  Returns the memory
after the call and the backend invocations performed. -/
def alsa_log_stub (c : AlsaCall) (m : CMem) : CMem × List AlsaSinkEvent :=
  (⟨storeBytes m.buf (bufWritten BUF_SIZE (formatUnbounded c.format c.args)), m.rest⟩,
   [⟨c.file, c.line, c.function, c.errno,
     cString (storeBytes m.buf (bufWritten BUF_SIZE (formatUnbounded c.format c.args)))⟩])

/-- src/fflog.c, `ffmpeg_log_stub`: render the format request into `buf`
with `vsnprintf(buf, sizeof(buf), format, arg)`, then call
`ffmpeg_log_backend((uintptr_t)ptr, level, buf)`.  Returns the memory after
the call and the backend invocations performed. -/
def ffmpeg_log_stub (c : FfCall) (m : CMem) : CMem × List FfSinkEvent :=
  (⟨storeBytes m.buf (bufWritten BUF_SIZE (formatUnbounded c.format c.args)), m.rest⟩,
   [⟨c.ptr, c.level,
     cString (storeBytes m.buf (bufWritten BUF_SIZE (formatUnbounded c.format c.args)))⟩])

/-- A format argument contributes no NUL byte to the output (integers
always render NUL-free; a string argument must itself be a C string, hence
NUL-free). -/
def nulFreeArg : FmtArg → Bool
  | FmtArg.int _ => true
  | FmtArg.str s => s.all (fun b => b != 0)

theorem natDigitsCore_bounds : ∀ (fuel n : Nat) (acc : List Nat),
    (∀ x ∈ acc, 48 ≤ x ∧ x ≤ 57) →
    ∀ x ∈ natDigitsCore fuel n acc, 48 ≤ x ∧ x ≤ 57
  | 0, _, acc, h => by simpa [natDigitsCore] using h
  | fuel + 1, n, acc, h => by
    intro x hx
    simp only [natDigitsCore] at hx
    by_cases hn : n < 10
    · rw [if_pos hn] at hx
      rcases List.mem_cons.mp hx with h1 | h2
      · constructor <;> omega
      · exact h x h2
    · rw [if_neg hn] at hx
      refine natDigitsCore_bounds fuel (n / 10) _ ?_ x hx
      intro y hy
      rcases List.mem_cons.mp hy with h1 | h2
      · constructor <;> omega
      · exact h y h2

theorem intToDecBytes_ne_zero (i : Int) : ∀ x ∈ intToDecBytes i, x ≠ 0 := by
  intro x hx
  unfold intToDecBytes natToDecBytes at hx
  by_cases hi : i < 0
  · rw [if_pos hi] at hx
    rcases List.mem_cons.mp hx with h1 | h2
    · omega
    · have := natDigitsCore_bounds _ _ _ (by simp) x h2
      omega
  · rw [if_neg hi] at hx
    have := natDigitsCore_bounds _ _ _ (by simp) x hx
    omega

theorem fmtU_nil (args : List FmtArg) : formatUnbounded [] args = [] := rfl

theorem fmtU_one (c : Nat) (args : List FmtArg) :
    formatUnbounded [c] args = if c = 37 then [] else [c] := rfl

theorem fmtU_pctpct (rest : List Nat) (args : List FmtArg) :
    formatUnbounded (37 :: 37 :: rest) args = 37 :: formatUnbounded rest args := rfl

theorem fmtU_d_nil (rest : List Nat) :
    formatUnbounded (37 :: 100 :: rest) [] = formatUnbounded rest [] := rfl

theorem fmtU_d_int (rest : List Nat) (i : Int) (args2 : List FmtArg) :
    formatUnbounded (37 :: 100 :: rest) (FmtArg.int i :: args2)
      = intToDecBytes i ++ formatUnbounded rest args2 := rfl

theorem fmtU_d_str (rest : List Nat) (s : List Nat) (args2 : List FmtArg) :
    formatUnbounded (37 :: 100 :: rest) (FmtArg.str s :: args2)
      = formatUnbounded rest (FmtArg.str s :: args2) := rfl

theorem fmtU_s_nil (rest : List Nat) :
    formatUnbounded (37 :: 115 :: rest) [] = formatUnbounded rest [] := rfl

theorem fmtU_s_int (rest : List Nat) (i : Int) (args2 : List FmtArg) :
    formatUnbounded (37 :: 115 :: rest) (FmtArg.int i :: args2)
      = formatUnbounded rest (FmtArg.int i :: args2) := rfl

theorem fmtU_s_str (rest : List Nat) (s : List Nat) (args2 : List FmtArg) :
    formatUnbounded (37 :: 115 :: rest) (FmtArg.str s :: args2)
      = s ++ formatUnbounded rest args2 := rfl

theorem fmtU_cons_ne (c d : Nat) (rest : List Nat) (args : List FmtArg) (hc : c ≠ 37) :
    formatUnbounded (c :: d :: rest) args = c :: formatUnbounded (d :: rest) args := by
  rw [formatUnbounded.eq_def]
  simp [hc]

theorem fmtU_unknown (d : Nat) (rest : List Nat) (args : List FmtArg)
    (h37 : d ≠ 37) (h100 : d ≠ 100) (h115 : d ≠ 115) :
    formatUnbounded (37 :: d :: rest) args = 37 :: d :: formatUnbounded rest args := by
  rw [formatUnbounded.eq_def]
  simp [h37, h100, h115]

theorem nulFreeArg_sub {args : List FmtArg} {a : FmtArg}
    (ha : ∀ b ∈ a :: args, nulFreeArg b = true) : ∀ b ∈ args, nulFreeArg b = true :=
  fun b hb => ha b (List.mem_cons_of_mem a hb)

theorem formatUnbounded_nulFree : ∀ (fmt : List Nat) (args : List FmtArg),
    (∀ x ∈ fmt, x ≠ 0) → (∀ a ∈ args, nulFreeArg a = true) →
    ∀ x ∈ formatUnbounded fmt args, x ≠ 0
  | [], args, _, _ => by simp [fmtU_nil]
  | c :: [], args, hf, _ => by
    intro x hx
    rw [fmtU_one] at hx
    by_cases hc : c = 37
    · simp [hc] at hx
    · rw [if_neg hc, List.mem_singleton] at hx
      exact hx ▸ hf c (by simp)
  | c :: d :: fmtRest, args, hf, ha => by
    have hfRest : ∀ x ∈ fmtRest, x ≠ 0 := fun x hx => hf x (by simp [hx])
    have hfdRest : ∀ x ∈ d :: fmtRest, x ≠ 0 := by
      intro x hx
      rcases List.mem_cons.mp hx with h1 | h2
      · exact h1 ▸ hf d (by simp)
      · exact hfRest x h2
    intro x hx
    by_cases hc : c = 37
    case neg =>
      rw [fmtU_cons_ne c d fmtRest args hc] at hx
      rcases List.mem_cons.mp hx with h1 | h2
      · exact h1 ▸ hf c (by simp)
      · exact formatUnbounded_nulFree (d :: fmtRest) args hfdRest ha x h2
    case pos =>
      subst hc
      by_cases hd37 : d = 37
      · subst hd37
        rw [fmtU_pctpct] at hx
        rcases List.mem_cons.mp hx with h1 | h2
        · omega
        · exact formatUnbounded_nulFree fmtRest args hfRest ha x h2
      · by_cases hd100 : d = 100
        · subst hd100
          rcases args with _ | ⟨a, args2⟩
          · rw [fmtU_d_nil] at hx
            exact formatUnbounded_nulFree fmtRest [] hfRest (by simp) x hx
          · rcases a with i | s
            · rw [fmtU_d_int] at hx
              rcases List.mem_append.mp hx with h1 | h2
              · exact intToDecBytes_ne_zero i x h1
              · exact formatUnbounded_nulFree fmtRest args2 hfRest (nulFreeArg_sub ha) x h2
            · rw [fmtU_d_str] at hx
              exact formatUnbounded_nulFree fmtRest (FmtArg.str s :: args2) hfRest ha x hx
        · by_cases hd115 : d = 115
          · subst hd115
            rcases args with _ | ⟨a, args2⟩
            · rw [fmtU_s_nil] at hx
              exact formatUnbounded_nulFree fmtRest [] hfRest (by simp) x hx
            · rcases a with i | s
              · rw [fmtU_s_int] at hx
                exact formatUnbounded_nulFree fmtRest (FmtArg.int i :: args2) hfRest ha x hx
              · rw [fmtU_s_str] at hx
                rcases List.mem_append.mp hx with h1 | h2
                · have hs : nulFreeArg (FmtArg.str s) = true := ha (FmtArg.str s) (by simp)
                  have hmem : ∀ y ∈ s, y ≠ 0 := by simpa [nulFreeArg] using hs
                  exact hmem x h1
                · exact formatUnbounded_nulFree fmtRest args2 hfRest (nulFreeArg_sub ha) x h2
          · rw [fmtU_unknown d fmtRest args hd37 hd100 hd115] at hx
            rcases List.mem_cons.mp hx with h1 | h2
            · omega
            · rcases List.mem_cons.mp h2 with h3 | h4
              · exact h3 ▸ hf d (by simp)
              · exact formatUnbounded_nulFree fmtRest args hfRest ha x h4

theorem formatUnbounded_literal (fmt : List Nat) (args : List FmtArg)
    (h : ∀ x ∈ fmt, x ≠ 37) : formatUnbounded fmt args = fmt := by
  induction fmt with
  | nil => exact fmtU_nil args
  | cons c cRest ih =>
    have hc : c ≠ 37 := h c (by simp)
    cases cRest with
    | nil => rw [fmtU_one, if_neg hc]
    | cons d fmtRest =>
      rw [fmtU_cons_ne c d fmtRest args hc, ih (fun x hx => h x (by simp [hx]))]

theorem cString_cons (a : Nat) (t : List Nat) :
    cString (a :: t) = if a = 0 then [] else a :: cString t := by
  by_cases h : a = 0
  · subst h
    simp [cString]
  · simp [cString, h]

theorem cString_append_stop : ∀ (l r : List Nat), (∀ x ∈ l, x ≠ 0) →
    cString (l ++ 0 :: r) = l
  | [], r, _ => by simp [cString_cons]
  | a :: t, r, h => by
    have ha : a ≠ 0 := h a (by simp)
    rw [List.cons_append, cString_cons, if_neg ha,
      cString_append_stop t r (fun x hx => h x (by simp [hx]))]

theorem cString_append_zero_length : ∀ (l r : List Nat),
    (cString (l ++ 0 :: r)).length ≤ l.length
  | [], r => by simp [cString_cons]
  | a :: t, r => by
    by_cases ha : a = 0
    · rw [List.cons_append, cString_cons, if_pos ha]
      simp
    · rw [List.cons_append, cString_cons, if_neg ha]
      have h := cString_append_zero_length t r
      simp only [List.length_cons]
      omega

theorem cString_append_indep : ∀ (l r : List Nat),
    cString (l ++ 0 :: r) = cString (l ++ [0])
  | [], r => by simp [cString_cons]
  | a :: t, r => by
    by_cases ha : a = 0
    · rw [List.cons_append, cString_cons, if_pos ha, List.cons_append, cString_cons,
        if_pos ha]
    · rw [List.cons_append, cString_cons, if_neg ha, List.cons_append, cString_cons,
        if_neg ha, cString_append_indep t r]

theorem bufWritten_length_le (size : Nat) (out : List Nat) (h : 1 ≤ size) :
    (bufWritten size out).length ≤ size := by
  simp only [bufWritten, List.length_append, List.length_take, List.length_singleton]
  omega

theorem storeBytes_length (dst src : List Nat) (h : src.length ≤ dst.length) :
    (storeBytes dst src).length = dst.length := by
  simp only [storeBytes, List.length_append, List.length_drop]
  omega

theorem storeBytes_drop (dst src : List Nat) :
    (storeBytes dst src).drop src.length = dst.drop src.length := by
  unfold storeBytes
  exact List.drop_left _ _

theorem storeBytes_take (dst src : List Nat) :
    (storeBytes dst src).take src.length = src := by
  unfold storeBytes
  exact List.take_left _ _

theorem cString_storeBytes_bufWritten (dst out : List Nat) (size : Nat) :
    cString (storeBytes dst (bufWritten size out)) = cString (bufWritten size out) := by
  unfold storeBytes bufWritten
  rw [List.append_assoc, List.singleton_append, cString_append_indep]

theorem cString_bufWritten_of_nulFree (out : List Nat) (size : Nat)
    (h : ∀ x ∈ out, x ≠ 0) :
    cString (bufWritten size out) = out.take (size - 1) := by
  unfold bufWritten
  exact cString_append_stop (out.take (size - 1)) []
    (fun x hx => h x (List.take_subset _ _ hx))

theorem cString_bufWritten_length_le (out : List Nat) (size : Nat) :
    (cString (bufWritten size out)).length ≤ size - 1 := by
  unfold bufWritten
  refine le_trans (cString_append_zero_length (out.take (size - 1)) []) ?_
  rw [List.length_take]
  omega

theorem alsa_stub_trace (c : AlsaCall) (m : CMem) :
    (alsa_log_stub c m).2
      = [⟨c.file, c.line, c.function, c.errno,
          cString (bufWritten BUF_SIZE (formatUnbounded c.format c.args))⟩] := by
  simp only [alsa_log_stub]
  rw [cString_storeBytes_bufWritten]

theorem ff_stub_trace (cf : FfCall) (m : CMem) :
    (ffmpeg_log_stub cf m).2
      = [⟨cf.ptr, cf.level,
          cString (bufWritten BUF_SIZE (formatUnbounded cf.format cf.args))⟩] := by
  simp only [ffmpeg_log_stub]
  rw [cString_storeBytes_bufWritten]

theorem stub_buf_props (fmt : List Nat) (args : List FmtArg) (buf : List Nat)
    (hm : buf.length = BUF_SIZE)
    (hf : ∀ x ∈ fmt, x ≠ 0) (ha : ∀ a ∈ args, nulFreeArg a = true) :
    (storeBytes buf (bufWritten BUF_SIZE (formatUnbounded fmt args))).length = BUF_SIZE
    ∧ cString (bufWritten BUF_SIZE (formatUnbounded fmt args))
        = (formatUnbounded fmt args).take (BUF_SIZE - 1)
    ∧ (storeBytes buf (bufWritten BUF_SIZE (formatUnbounded fmt args))).take
        ((cString (bufWritten BUF_SIZE (formatUnbounded fmt args))).length + 1)
      = cString (bufWritten BUF_SIZE (formatUnbounded fmt args)) ++ [0] := by
  have hmsg : cString (bufWritten BUF_SIZE (formatUnbounded fmt args))
      = (formatUnbounded fmt args).take (BUF_SIZE - 1) :=
    cString_bufWritten_of_nulFree _ _ (formatUnbounded_nulFree fmt args hf ha)
  refine ⟨?_, hmsg, ?_⟩
  · rw [← hm]
    apply storeBytes_length
    rw [hm]
    exact bufWritten_length_le _ _ (by norm_num [BUF_SIZE])
  · have hwlen : (bufWritten BUF_SIZE (formatUnbounded fmt args)).length
        = (cString (bufWritten BUF_SIZE (formatUnbounded fmt args))).length + 1 := by
      rw [hmsg]
      simp [bufWritten]
    rw [← hwlen, storeBytes_take]
    rw [hmsg]
    rfl

/-- C1: for every format template and argument list (NUL-free, as C strings
must be) whose unbounded formatted output is at most 1023 bytes, the message
passed to the sink equals the unbounded formatting result exactly, with no
truncation, for both adapters. -/
theorem c1_message_exact_when_fits (fmt : List Nat) (args : List FmtArg)
    (hf : ∀ x ∈ fmt, x ≠ 0) (ha : ∀ a ∈ args, nulFreeArg a = true)
    (hlen : (formatUnbounded fmt args).length ≤ BUF_SIZE - 1) :
    (∀ (file fn : List Nat) (line errv : Int) (m : CMem),
      (alsa_log_stub ⟨file, line, fn, errv, fmt, args⟩ m).2
        = [⟨file, line, fn, errv, formatUnbounded fmt args⟩]) ∧
    (∀ (ptr : Nat) (level : Int) (m : CMem),
      (ffmpeg_log_stub ⟨ptr, level, fmt, args⟩ m).2
        = [⟨ptr, level, formatUnbounded fmt args⟩]) := by
  have hmsg : cString (bufWritten BUF_SIZE (formatUnbounded fmt args))
      = formatUnbounded fmt args := by
    rw [cString_bufWritten_of_nulFree _ _ (formatUnbounded_nulFree fmt args hf ha)]
    exact List.take_of_length_le hlen
  constructor
  · intro file fn line errv m
    rw [alsa_stub_trace]
    dsimp only
    rw [hmsg]
  · intro ptr level m
    rw [ff_stub_trace]
    dsimp only
    rw [hmsg]

/-- Witness for C1: the two-byte literal template 104 105 with no
arguments is forwarded verbatim by the alsa adapter. -/
theorem c1_message_exact_when_fits_witness :
    (alsa_log_stub ⟨[102], 7, [103], 2, [104, 105], []⟩
        ⟨List.replicate 1024 9, [1]⟩).2
      = [⟨[102], 7, [103], 2, [104, 105]⟩] := by
  have hfmt : formatUnbounded [104, 105] [] = [104, 105] := by decide
  have h := c1_message_exact_when_fits [104, 105] [] (by decide) (by simp)
    (by rw [hfmt]; norm_num [BUF_SIZE])
  have h2 := h.1 [102] [103] 7 2 ⟨List.replicate 1024 9, [1]⟩
  rw [hfmt] at h2
  exact h2

theorem storeBytes_take_of_length (dst src : List Nat) (n : Nat) (h : src.length = n) :
    (storeBytes dst src).take n = src := by
  subst h
  exact storeBytes_take dst src

theorem bufWritten_length_of_overflow (out : List Nat)
    (h : BUF_SIZE - 1 < out.length) :
    (bufWritten BUF_SIZE out).length = BUF_SIZE := by
  simp only [BUF_SIZE] at h ⊢
  simp only [bufWritten, List.length_append, List.length_take, List.length_singleton]
  omega

/-- C2: when the unbounded formatted output exceeds 1023 bytes, the sink
receives exactly the first 1023 bytes of the unbounded result, the buffer
holds those bytes followed by the NUL terminator, and nothing is written
beyond the 1024-byte capacity, for both adapters. -/
theorem c2_truncation_on_overflow (fmt : List Nat) (args : List FmtArg)
    (hf : ∀ x ∈ fmt, x ≠ 0) (ha : ∀ a ∈ args, nulFreeArg a = true)
    (hlen : BUF_SIZE - 1 < (formatUnbounded fmt args).length) :
    (∀ (file fn : List Nat) (line errv : Int) (m : CMem),
      (alsa_log_stub ⟨file, line, fn, errv, fmt, args⟩ m).2
          = [⟨file, line, fn, errv, (formatUnbounded fmt args).take (BUF_SIZE - 1)⟩]
        ∧ (m.buf.length = BUF_SIZE →
            (alsa_log_stub ⟨file, line, fn, errv, fmt, args⟩ m).1.buf.length = BUF_SIZE)
        ∧ (alsa_log_stub ⟨file, line, fn, errv, fmt, args⟩ m).1.buf.take BUF_SIZE
            = (formatUnbounded fmt args).take (BUF_SIZE - 1) ++ [0]) ∧
    (∀ (ptr : Nat) (level : Int) (m : CMem),
      (ffmpeg_log_stub ⟨ptr, level, fmt, args⟩ m).2
          = [⟨ptr, level, (formatUnbounded fmt args).take (BUF_SIZE - 1)⟩]
        ∧ (m.buf.length = BUF_SIZE →
            (ffmpeg_log_stub ⟨ptr, level, fmt, args⟩ m).1.buf.length = BUF_SIZE)
        ∧ (ffmpeg_log_stub ⟨ptr, level, fmt, args⟩ m).1.buf.take BUF_SIZE
            = (formatUnbounded fmt args).take (BUF_SIZE - 1) ++ [0]) := by
  have hmsg : cString (bufWritten BUF_SIZE (formatUnbounded fmt args))
      = (formatUnbounded fmt args).take (BUF_SIZE - 1) :=
    cString_bufWritten_of_nulFree _ _ (formatUnbounded_nulFree fmt args hf ha)
  have hw : (bufWritten BUF_SIZE (formatUnbounded fmt args)).length = BUF_SIZE :=
    bufWritten_length_of_overflow _ hlen
  constructor
  · intro file fn line errv m
    refine ⟨?_, ?_, ?_⟩
    · rw [alsa_stub_trace]
      dsimp only
      rw [hmsg]
    · intro hm
      simp only [alsa_log_stub]
      rw [← hm]
      apply storeBytes_length
      rw [hm, hw]
    · simp only [alsa_log_stub]
      rw [storeBytes_take_of_length m.buf _ BUF_SIZE hw]
      unfold bufWritten
      rfl
  · intro ptr level m
    refine ⟨?_, ?_, ?_⟩
    · rw [ff_stub_trace]
      dsimp only
      rw [hmsg]
    · intro hm
      simp only [ffmpeg_log_stub]
      rw [← hm]
      apply storeBytes_length
      rw [hm, hw]
    · simp only [ffmpeg_log_stub]
      rw [storeBytes_take_of_length m.buf _ BUF_SIZE hw]
      unfold bufWritten
      rfl

/-- Witness for C2: a 2000-byte directive-free literal template is
truncated to its first 1023 bytes, forwarded by the ffmpeg adapter. -/
theorem c2_truncation_on_overflow_witness :
    (ffmpeg_log_stub ⟨5, 3, List.replicate 2000 97, []⟩
        ⟨List.replicate 1024 0, []⟩).2
      = [⟨5, 3, List.replicate 1023 97⟩] := by
  have hlit : formatUnbounded (List.replicate 2000 97) [] = List.replicate 2000 97 :=
    formatUnbounded_literal _ _ (by
      intro x hx
      have := List.eq_of_mem_replicate hx
      omega)
  have hf : ∀ x ∈ List.replicate 2000 (97 : Nat), x ≠ 0 := by
    intro x hx
    have := List.eq_of_mem_replicate hx
    omega
  have hlen : BUF_SIZE - 1 < (formatUnbounded (List.replicate 2000 97) []).length := by
    rw [hlit, List.length_replicate]
    norm_num [BUF_SIZE]
  have h := (c2_truncation_on_overflow (List.replicate 2000 97) [] hf (by simp)
      hlen).2 5 3 ⟨List.replicate 1024 0, []⟩
  rw [h.1, hlit, List.take_replicate, min_eq_left (by norm_num [BUF_SIZE])]
  norm_num [BUF_SIZE]

/-- C3: for every input (with NUL-free template and arguments, as C
strings must be), the rendered message never exceeds the fixed capacity:
the 1024-byte buffer keeps its length (no overrun), the message holds at
most 1023 bytes, truncation deterministically keeps exactly the bytes of
the unbounded result that fit, and the byte after the message in the
buffer is the NUL terminator. -/
theorem c3_bounded_and_terminated (c : AlsaCall) (cf : FfCall) (m mf : CMem)
    (hm : m.buf.length = BUF_SIZE) (hmf : mf.buf.length = BUF_SIZE)
    (hf : ∀ x ∈ c.format, x ≠ 0) (hac : ∀ a ∈ c.args, nulFreeArg a = true)
    (hff : ∀ x ∈ cf.format, x ≠ 0) (haf : ∀ a ∈ cf.args, nulFreeArg a = true) :
    ((alsa_log_stub c m).1.buf.length = BUF_SIZE
      ∧ ∀ e ∈ (alsa_log_stub c m).2,
          e.message.length ≤ BUF_SIZE - 1
          ∧ e.message = (formatUnbounded c.format c.args).take (BUF_SIZE - 1)
          ∧ (alsa_log_stub c m).1.buf.take (e.message.length + 1) = e.message ++ [0])
    ∧ ((ffmpeg_log_stub cf mf).1.buf.length = BUF_SIZE
      ∧ ∀ e ∈ (ffmpeg_log_stub cf mf).2,
          e.message.length ≤ BUF_SIZE - 1
          ∧ e.message = (formatUnbounded cf.format cf.args).take (BUF_SIZE - 1)
          ∧ (ffmpeg_log_stub cf mf).1.buf.take (e.message.length + 1)
              = e.message ++ [0]) := by
  obtain ⟨hA1, hA2, hA3⟩ := stub_buf_props c.format c.args m.buf hm hf hac
  obtain ⟨hB1, hB2, hB3⟩ := stub_buf_props cf.format cf.args mf.buf hmf hff haf
  constructor
  · refine ⟨hA1, ?_⟩
    rw [alsa_stub_trace]
    intro e he
    rw [List.mem_singleton] at he
    subst he
    exact ⟨cString_bufWritten_length_le _ _, hA2, hA3⟩
  · refine ⟨hB1, ?_⟩
    rw [ff_stub_trace]
    intro e he
    rw [List.mem_singleton] at he
    subst he
    exact ⟨cString_bufWritten_length_le _ _, hB2, hB3⟩

/-- Witness for C3 at concrete calls of both adapters. -/
theorem c3_bounded_and_terminated_witness :
    ((alsa_log_stub ⟨[1], 2, [3], 4, [37, 100], [FmtArg.int (-7)]⟩
          ⟨List.replicate 1024 5, [6]⟩).1.buf.length = BUF_SIZE
      ∧ ∀ e ∈ (alsa_log_stub ⟨[1], 2, [3], 4, [37, 100], [FmtArg.int (-7)]⟩
          ⟨List.replicate 1024 5, [6]⟩).2,
          e.message.length ≤ BUF_SIZE - 1
          ∧ e.message = (formatUnbounded [37, 100] [FmtArg.int (-7)]).take (BUF_SIZE - 1)
          ∧ (alsa_log_stub ⟨[1], 2, [3], 4, [37, 100], [FmtArg.int (-7)]⟩
              ⟨List.replicate 1024 5, [6]⟩).1.buf.take (e.message.length + 1)
              = e.message ++ [0])
    ∧ ((ffmpeg_log_stub ⟨8, 9, [37, 115, 33], [FmtArg.str [10, 11]]⟩
          ⟨List.replicate 1024 12, []⟩).1.buf.length = BUF_SIZE
      ∧ ∀ e ∈ (ffmpeg_log_stub ⟨8, 9, [37, 115, 33], [FmtArg.str [10, 11]]⟩
          ⟨List.replicate 1024 12, []⟩).2,
          e.message.length ≤ BUF_SIZE - 1
          ∧ e.message = (formatUnbounded [37, 115, 33] [FmtArg.str [10, 11]]).take (BUF_SIZE - 1)
          ∧ (ffmpeg_log_stub ⟨8, 9, [37, 115, 33], [FmtArg.str [10, 11]]⟩
              ⟨List.replicate 1024 12, []⟩).1.buf.take (e.message.length + 1)
              = e.message ++ [0]) :=
  c3_bounded_and_terminated _ _ _ _ (by simp only [List.length_replicate, BUF_SIZE])
    (by simp only [List.length_replicate, BUF_SIZE]) (by decide) (by decide)
    (by decide) (by decide)

/-- C4: each adapter invokes its external sink exactly once per call and
forwards every metadata field unchanged: file, line, function and errno
for the alsa adapter, handle and level for the ffmpeg adapter. -/
theorem c4_metadata_passthrough (c : AlsaCall) (cf : FfCall) (m mf : CMem) :
    (alsa_log_stub c m).2.length = 1
    ∧ (∀ e ∈ (alsa_log_stub c m).2,
        e.file = c.file ∧ e.line = c.line ∧ e.function = c.function ∧ e.errno = c.errno)
    ∧ (ffmpeg_log_stub cf mf).2.length = 1
    ∧ (∀ e ∈ (ffmpeg_log_stub cf mf).2, e.handle = cf.ptr ∧ e.level = cf.level) := by
  refine ⟨by simp [alsa_log_stub], ?_, by simp [ffmpeg_log_stub], ?_⟩
  · rw [alsa_stub_trace]
    intro e he
    rw [List.mem_singleton] at he
    subst he
    exact ⟨rfl, rfl, rfl, rfl⟩
  · rw [ff_stub_trace]
    intro e he
    rw [List.mem_singleton] at he
    subst he
    exact ⟨rfl, rfl⟩

/-- C5: the ffmpeg adapter treats the context handle purely as a numeric
token: the handle reaches the sink unchanged, a null handle (value 0) is
forwarded as the integer 0, and changing the handle changes nothing else
in the call's behaviour (no dereference, validation or management). -/
theorem c5_handle_opaque (cf : FfCall) (m : CMem) (p : Nat) :
    ((ffmpeg_log_stub cf m).2.map FfSinkEvent.handle = [cf.ptr])
    ∧ ((ffmpeg_log_stub { cf with ptr := 0 } m).2.map FfSinkEvent.handle = [0])
    ∧ ((ffmpeg_log_stub { cf with ptr := p } m).2.map (fun e => (e.level, e.message))
        = (ffmpeg_log_stub cf m).2.map (fun e => (e.level, e.message)))
    ∧ (ffmpeg_log_stub { cf with ptr := p } m).1 = (ffmpeg_log_stub cf m).1 :=
  ⟨rfl, rfl, rfl, rfl⟩

/-- C6: formatting never reports failure to the caller and the sink's
outcome is not observed: each adapter call is total, always hands the sink
exactly one bounded message together with its metadata, and returns
nothing that distinguishes an error case. -/
theorem c6_no_failure_reported (c : AlsaCall) (cf : FfCall) (m mf : CMem) :
    (∃ msg, (alsa_log_stub c m).2 = [⟨c.file, c.line, c.function, c.errno, msg⟩]
        ∧ msg.length ≤ BUF_SIZE - 1)
    ∧ (∃ msg, (ffmpeg_log_stub cf mf).2 = [⟨cf.ptr, cf.level, msg⟩]
        ∧ msg.length ≤ BUF_SIZE - 1) :=
  ⟨⟨_, alsa_stub_trace c m, cString_bufWritten_length_le _ _⟩,
   ⟨_, ff_stub_trace cf mf, cString_bufWritten_length_le _ _⟩⟩

/-- C7: the adapters are deterministic, stateless functions of their
arguments: the sink invocations do not depend on the prior memory
contents, and an immediately repeated identical call produces the
identical sink invocations. -/
theorem c7_stateless_deterministic (c : AlsaCall) (cf : FfCall) (m1 m2 : CMem) :
    ((alsa_log_stub c m1).2 = (alsa_log_stub c m2).2)
    ∧ ((alsa_log_stub c (alsa_log_stub c m1).1).2 = (alsa_log_stub c m1).2)
    ∧ ((ffmpeg_log_stub cf m1).2 = (ffmpeg_log_stub cf m2).2)
    ∧ ((ffmpeg_log_stub cf (ffmpeg_log_stub cf m1).1).2 = (ffmpeg_log_stub cf m1).2) := by
  refine ⟨?_, ?_, ?_, ?_⟩
  · rw [alsa_stub_trace, alsa_stub_trace]
  · rw [alsa_stub_trace, alsa_stub_trace]
  · rw [ff_stub_trace, ff_stub_trace]
  · rw [ff_stub_trace, ff_stub_trace]

/-- C8: for the concrete template bytes of percent-d space i t e m s with
integer argument 5, the alsa adapter renders the byte string 5 space
i t e m s and the sink receives it together with the unchanged file, line,
function and errno fields. -/
theorem c8_concrete_five_items (file fn : List Nat) (line errv : Int) (m : CMem) :
    (alsa_log_stub ⟨file, line, fn, errv,
        [37, 100, 32, 105, 116, 101, 109, 115], [FmtArg.int 5]⟩ m).2
      = [⟨file, line, fn, errv, [53, 32, 105, 116, 101, 109, 115]⟩] := by
  rw [alsa_stub_trace]
  dsimp only
  rw [show cString (bufWritten BUF_SIZE (formatUnbounded
      [37, 100, 32, 105, 116, 101, 109, 115] [FmtArg.int 5]))
      = [53, 32, 105, 116, 101, 109, 115] from by decide]

/-- C9: the only side effect of a call is writing the rendered bytes into
the rendering buffer: the rest of memory is returned unchanged, the bytes
of the buffer past the written region keep their previous values, and the
written region holds exactly the bytes the formatter produced. -/
theorem c9_formatter_frame (c : AlsaCall) (cf : FfCall) (m mf : CMem) :
    ((alsa_log_stub c m).1.rest = m.rest)
    ∧ ((alsa_log_stub c m).1.buf.drop
          (bufWritten BUF_SIZE (formatUnbounded c.format c.args)).length
        = m.buf.drop (bufWritten BUF_SIZE (formatUnbounded c.format c.args)).length)
    ∧ ((alsa_log_stub c m).1.buf.take
          (bufWritten BUF_SIZE (formatUnbounded c.format c.args)).length
        = bufWritten BUF_SIZE (formatUnbounded c.format c.args))
    ∧ ((ffmpeg_log_stub cf mf).1.rest = mf.rest)
    ∧ ((ffmpeg_log_stub cf mf).1.buf.drop
          (bufWritten BUF_SIZE (formatUnbounded cf.format cf.args)).length
        = mf.buf.drop (bufWritten BUF_SIZE (formatUnbounded cf.format cf.args)).length)
    ∧ ((ffmpeg_log_stub cf mf).1.buf.take
          (bufWritten BUF_SIZE (formatUnbounded cf.format cf.args)).length
        = bufWritten BUF_SIZE (formatUnbounded cf.format cf.args)) :=
  ⟨rfl, storeBytes_drop m.buf _, storeBytes_take m.buf _,
   rfl, storeBytes_drop mf.buf _, storeBytes_take mf.buf _⟩

/-- C10: even on the truncating path each adapter still performs exactly
one sink call: the sink receives the truncated message of exactly 1023
bytes, and the terminator sits right after it in the buffer, with no
separate error branch and no skipped forwarding. -/
theorem c10_truncation_still_forwards (fmt : List Nat) (args : List FmtArg)
    (hf : ∀ x ∈ fmt, x ≠ 0) (ha : ∀ a ∈ args, nulFreeArg a = true)
    (hlen : BUF_SIZE - 1 < (formatUnbounded fmt args).length) :
    ∀ (file fn : List Nat) (line errv level : Int) (ptr : Nat) (m mf : CMem),
      (alsa_log_stub ⟨file, line, fn, errv, fmt, args⟩ m).2.length = 1
      ∧ (∀ e ∈ (alsa_log_stub ⟨file, line, fn, errv, fmt, args⟩ m).2,
          e.message = (formatUnbounded fmt args).take (BUF_SIZE - 1)
          ∧ e.message.length = BUF_SIZE - 1)
      ∧ (ffmpeg_log_stub ⟨ptr, level, fmt, args⟩ mf).2.length = 1
      ∧ (∀ e ∈ (ffmpeg_log_stub ⟨ptr, level, fmt, args⟩ mf).2,
          e.message = (formatUnbounded fmt args).take (BUF_SIZE - 1)
          ∧ e.message.length = BUF_SIZE - 1) := by
  intro file fn line errv level ptr m mf
  have hmsg : cString (bufWritten BUF_SIZE (formatUnbounded fmt args))
      = (formatUnbounded fmt args).take (BUF_SIZE - 1) :=
    cString_bufWritten_of_nulFree _ _ (formatUnbounded_nulFree fmt args hf ha)
  have htlen : ((formatUnbounded fmt args).take (BUF_SIZE - 1)).length = BUF_SIZE - 1 := by
    rw [List.length_take]
    omega
  refine ⟨by simp [alsa_log_stub], ?_, by simp [ffmpeg_log_stub], ?_⟩
  · rw [alsa_stub_trace]
    intro e he
    rw [List.mem_singleton] at he
    subst he
    exact ⟨hmsg, by rw [hmsg, htlen]⟩
  · rw [ff_stub_trace]
    intro e he
    rw [List.mem_singleton] at he
    subst he
    exact ⟨hmsg, by rw [hmsg, htlen]⟩

/-- Witness for C10: a 1500-byte directive-free literal template still
results in exactly one sink call on each adapter, carrying the 1023-byte
truncated message. -/
theorem c10_truncation_still_forwards_witness :
    (alsa_log_stub ⟨[20], 21, [22], 23, List.replicate 1500 98, []⟩
        ⟨List.replicate 1024 24, []⟩).2.length = 1
    ∧ (∀ e ∈ (alsa_log_stub ⟨[20], 21, [22], 23, List.replicate 1500 98, []⟩
        ⟨List.replicate 1024 24, []⟩).2,
        e.message = (formatUnbounded (List.replicate 1500 98) []).take (BUF_SIZE - 1)
        ∧ e.message.length = BUF_SIZE - 1)
    ∧ (ffmpeg_log_stub ⟨25, 26, List.replicate 1500 98, []⟩
        ⟨List.replicate 1024 27, []⟩).2.length = 1
    ∧ (∀ e ∈ (ffmpeg_log_stub ⟨25, 26, List.replicate 1500 98, []⟩
        ⟨List.replicate 1024 27, []⟩).2,
        e.message = (formatUnbounded (List.replicate 1500 98) []).take (BUF_SIZE - 1)
        ∧ e.message.length = BUF_SIZE - 1) := by
  have hf : ∀ x ∈ List.replicate 1500 (98 : Nat), x ≠ 0 := by
    intro x hx
    have := List.eq_of_mem_replicate hx
    omega
  have hlen : BUF_SIZE - 1 < (formatUnbounded (List.replicate 1500 98) []).length := by
    rw [formatUnbounded_literal _ _ (by
        intro x hx
        have := List.eq_of_mem_replicate hx
        omega),
      List.length_replicate]
    norm_num [BUF_SIZE]
  exact c10_truncation_still_forwards (List.replicate 1500 98) [] hf (by simp) hlen
    [20] [22] 21 23 26 25 ⟨List.replicate 1024 24, []⟩ ⟨List.replicate 1024 27, []⟩
